import Mathlib

/-!
# Verification of the identity-verification wizard (src/index.tsx)

Shallow embedding of the capture/review/processing/result workflow and the
media-acquisition unit of the browser identity-verification app.  The
embedding follows `src/index.tsx`:

* `Step` embeds the TypeScript union `AppStep`;
* `CamState`/`camStop`/`camStart` embed `stopCamera`/`startCamera` (the
  outcome of the `getUserMedia` request — primary success, fallback success,
  total failure — is an environment parameter `CamOutcome`);
* `JVal`/`jsonParse` model the platform `JSON.parse` on a practical JSON
  subset (objects, arrays, strings with common escapes, decimal numbers
  without exponents, `true`/`false`/`null`); numbers are kept exactly as a
  signed mantissa over a power-of-ten denominator;
* `Ctx`/`capturedImg` embed the canvas drawing in `captureImage`
  (`translate`/`scale(-1,1)`/`drawImage`/`toDataURL('image/jpeg', 0.9)`);
* `State`/`wfStep` embed the React component state and its event handlers;
  `wfStep` also reports how many verification requests the handler issues
  and the trace of primitive camera actions it performs.
-/

/-- Camera facing mode, the `'user' | 'environment'` union in the source. -/
inductive Facing where
  | user
  | environment
deriving DecidableEq, Repr

/-- The `AppStep` union type of the source. -/
inductive Step where
  | welcome
  | capture_id
  | review_id
  | capture_selfie
  | review_selfie
  | processing
  | result
deriving DecidableEq, Repr

/-! ## Media acquisition unit -/

/-- Outcome of one `startCamera` invocation: the primary `getUserMedia`
request succeeds, or it fails and the unconstrained fallback request
succeeds, or both fail (the catch sets the camera error message). -/
inductive CamOutcome where
  | primaryOk
  | fallbackOk
  | bothFail
deriving DecidableEq, Repr

/-- Primitive camera actions, used to express the ordering guarantee:
stopping the tracks of a stream, detaching `video.srcObject`, a granted or
denied `getUserMedia` request, and attaching a granted stream. -/
inductive CamEv where
  | stopTracks (i : Nat)
  | detach
  | requestGranted (i : Nat)
  | requestDenied
  | attach (i : Nat)
deriving DecidableEq, Repr

/-- Camera resource state: `live` lists the ids of streams some of whose
tracks are still running, `attached` is the stream bound to
`video.srcObject`, `next` is a fresh-id counter. -/
structure CamState where
  live : List Nat
  attached : Option Nat
  next : Nat
deriving DecidableEq, Repr

/-- Initial camera state: no stream granted, nothing attached. -/
def camInit0 : CamState := { live := [], attached := none, next := 0 }

/-- Effect of one primitive camera action on the resource state. -/
def camExec (c : CamState) : CamEv → CamState
  | .stopTracks i => { c with live := c.live.filter (fun j => j ≠ i) }
  | .detach => { c with attached := none }
  | .requestGranted i => { c with live := c.live ++ [i], next := i + 1 }
  | .requestDenied => c
  | .attach i => { c with attached := some i }

/-- Effect of a trace of primitive camera actions. -/
def camExecs (c : CamState) : List CamEv → CamState
  | [] => c
  | e :: t => camExecs (camExec c e) t

/-- Trace of `stopCamera`: if a stream is attached to `video.srcObject`,
stop all of its tracks and detach it; otherwise do nothing (idempotent). -/
def camStopTrace (c : CamState) : List CamEv :=
  match c.attached with
  | some i => [.stopTracks i, .detach]
  | none => []

/-- `stopCamera` of the source: resulting state and primitive trace. -/
def camStop (c : CamState) : CamState × List CamEv :=
  (camExecs c (camStopTrace c), camStopTrace c)

/-- Trace of `startCamera`: the previously attached stream is stopped
first, then the constrained request is issued; on its failure the
unconstrained fallback request is issued. -/
def camStartTrace (c : CamState) (o : CamOutcome) : List CamEv :=
  camStopTrace c ++
    match o with
    | .primaryOk => [.requestGranted c.next, .attach c.next]
    | .fallbackOk => [.requestDenied, .requestGranted c.next, .attach c.next]
    | .bothFail => [.requestDenied, .requestDenied]

/-- Result of `startCamera`: new camera state, primitive trace, and whether
both requests failed (in which case the source sets the camera error). -/
structure CamStartOut where
  cam : CamState
  trace : List CamEv
  failed : Bool

/-- `startCamera` of the source. -/
def camStart (c : CamState) (o : CamOutcome) : CamStartOut :=
  { cam := camExecs c (camStartTrace c o)
    trace := camStartTrace c o
    failed := o = .bothFail }

/-- The camera-access error message set when both requests fail. -/
def camErrMsg : String := "Could not access camera. Please ensure permissions are granted."

/-! ## JSON model (`JSON.parse` of the platform) -/

/-- Parsed JSON values.  A number is kept exactly as parsed: a signed
mantissa `n` over a power-of-ten denominator `d`. -/
inductive JVal where
  | jnull
  | jbool (b : Bool)
  | jnum (n : Int) (d : Nat)
  | jstr (s : String)
  | jarr (xs : List JVal)
  | jobj (fields : List (String × JVal))

/-- The double-quote character. -/
def quoteCh : Char := Char.ofNat 34

/-- The backslash character. -/
def backslashCh : Char := Char.ofNat 92

/-- The opening-brace character. -/
def lbraceCh : Char := Char.ofNat 123

/-- The closing-brace character. -/
def rbraceCh : Char := Char.ofNat 125

/-- JSON whitespace. -/
def isWsCh (c : Char) : Bool :=
  c = ' ' ∨ c = Char.ofNat 9 ∨ c = Char.ofNat 10 ∨ c = Char.ofNat 13

/-- Skip leading JSON whitespace. -/
def skipWs : List Char → List Char
  | [] => []
  | c :: r => if isWsCh c then skipWs r else c :: r

/-- JSON string escapes supported by the model. -/
def escCh (c : Char) : Option Char :=
  if c = quoteCh then some quoteCh
  else if c = backslashCh then some backslashCh
  else if c = '/' then some '/'
  else if c = 'n' then some (Char.ofNat 10)
  else if c = 't' then some (Char.ofNat 9)
  else if c = 'r' then some (Char.ofNat 13)
  else if c = 'b' then some (Char.ofNat 8)
  else if c = 'f' then some (Char.ofNat 12)
  else none

/-- Body of a JSON string, after the opening quote.  Returns the decoded
string and the remaining input past the closing quote. -/
def strBody (acc : List Char) : List Char → Except Unit (String × List Char)
  | [] => .error ()
  | c :: r =>
    if c = quoteCh then .ok (String.mk acc.reverse, r)
    else if c = backslashCh then
      match r with
      | [] => .error ()
      | e :: r2 =>
        match escCh e with
        | some ce => strBody (ce :: acc) r2
        | none => .error ()
    else strBody (c :: acc) r

/-- Take a run of decimal digits, returning their value, their count and
the remaining input. -/
def takeDigits (acc count : Nat) : List Char → Nat × Nat × List Char
  | [] => (acc, count, [])
  | c :: r =>
    if c.isDigit then takeDigits (acc * 10 + (c.toNat - 48)) (count + 1) r
    else (acc, count, c :: r)

/-- Parse a JSON number (optional minus sign, digits, optional fraction;
no exponents in this subset). -/
def parseNum (cs : List Char) : Except Unit (JVal × List Char) :=
  let signed : Bool × List Char :=
    match cs with
    | c :: r => if c = '-' then (true, r) else (false, cs)
    | [] => (false, [])
  let (ip, k, r1) := takeDigits 0 0 signed.2
  if k = 0 then .error ()
  else
    match r1 with
    | c :: r2 =>
      if c = '.' then
        let (fp, j, r3) := takeDigits 0 0 r2
        if j = 0 then .error ()
        else
          let mant : Int := (ip * 10 ^ j + fp : Nat)
          .ok (.jnum (if signed.1 then -mant else mant) (10 ^ j), r3)
      else .ok (.jnum (if signed.1 then -(ip : Int) else (ip : Nat)) 1, r1)
    | [] => .ok (.jnum (if signed.1 then -(ip : Int) else (ip : Nat)) 1, [])

mutual

/-- Parse one JSON value (fuelled recursive descent). -/
def parseVal : Nat → List Char → Except Unit (JVal × List Char)
  | 0, _ => .error ()
  | fuel + 1, cs =>
    match skipWs cs with
    | [] => .error ()
    | c :: rest =>
      if c = quoteCh then
        match strBody [] rest with
        | .ok (s, r) => .ok (.jstr s, r)
        | .error _ => .error ()
      else if c = lbraceCh then
        match skipWs rest with
        | [] => .error ()
        | c2 :: r2 =>
          if c2 = rbraceCh then .ok (.jobj [], r2)
          else parseMembers fuel [] (c2 :: r2)
      else if c = '[' then
        match skipWs rest with
        | [] => .error ()
        | c2 :: r2 =>
          if c2 = ']' then .ok (.jarr [], r2)
          else parseItems fuel [] (c2 :: r2)
      else if c = 't' then
        match rest with
        | 'r' :: 'u' :: 'e' :: r => .ok (.jbool true, r)
        | _ => .error ()
      else if c = 'f' then
        match rest with
        | 'a' :: 'l' :: 's' :: 'e' :: r => .ok (.jbool false, r)
        | _ => .error ()
      else if c = 'n' then
        match rest with
        | 'u' :: 'l' :: 'l' :: r => .ok (.jnull, r)
        | _ => .error ()
      else parseNum (c :: rest)

/-- Parse the members of a JSON object, after the opening brace, when the
object is not empty. -/
def parseMembers : Nat → List (String × JVal) → List Char →
    Except Unit (JVal × List Char)
  | 0, _, _ => .error ()
  | fuel + 1, acc, cs =>
    match skipWs cs with
    | [] => .error ()
    | c :: rest =>
      if c = quoteCh then
        match strBody [] rest with
        | .error _ => .error ()
        | .ok (k, r1) =>
          match skipWs r1 with
          | ':' :: r2 =>
            match parseVal fuel r2 with
            | .error _ => .error ()
            | .ok (v, r3) =>
              match skipWs r3 with
              | c4 :: r4 =>
                if c4 = ',' then parseMembers fuel (acc ++ [(k, v)]) r4
                else if c4 = rbraceCh then .ok (.jobj (acc ++ [(k, v)]), r4)
                else .error ()
              | [] => .error ()
          | _ => .error ()
      else .error ()

/-- Parse the items of a JSON array, after the opening bracket, when the
array is not empty. -/
def parseItems : Nat → List JVal → List Char → Except Unit (JVal × List Char)
  | 0, _, _ => .error ()
  | fuel + 1, acc, cs =>
    match parseVal fuel cs with
    | .error _ => .error ()
    | .ok (v, r1) =>
      match skipWs r1 with
      | c2 :: r2 =>
        if c2 = ',' then parseItems fuel (acc ++ [v]) r2
        else if c2 = ']' then .ok (.jarr (acc ++ [v]), r2)
        else .error ()
      | [] => .error ()

end

/-- `JSON.parse`: parse a whole string as a single JSON value. -/
def jsonParse (s : String) : Except Unit JVal :=
  match parseVal (s.length + 2) s.data with
  | .ok (v, rest) => if skipWs rest = [] then .ok v else .error ()
  | .error _ => .error ()

/-- `response.text || '\x7b\x7d'`: an absent or empty response text is
replaced by the empty-object literal (the empty string is falsy in JS). -/
def jsTextOrDefault (t : Option String) : String :=
  match t with
  | none => "\x7b\x7d"
  | some s => if s.isEmpty then "\x7b\x7d" else s

/-- Last binding of a key in a parsed object, as `JSON.parse` keeps the
last occurrence of a duplicated key. -/
def lookupLast (k : String) : List (String × JVal) → Option JVal
  | [] => none
  | (k1, x) :: r =>
    match lookupLast k r with
    | some y => some y
    | none => if k1 = k then some x else none

/-- JS property access `v[k]` on a parsed JSON value. -/
def jGet (v : JVal) (k : String) : Option JVal :=
  match v with
  | .jobj fs => lookupLast k fs
  | _ => none

/-! ## Canvas model (`captureImage`) -/

/-- A video frame: pixel intensity as a function of rational canvas
coordinates. -/
def Frame : Type := ℚ → ℚ → ℕ

/-- A 2d canvas transform restricted to the operations the source uses
(axis-aligned scaling and translation): `(x, y)` maps to
`(sx * x + tx, sy * y + ty)`. -/
structure Ctx where
  sx : ℚ
  sy : ℚ
  tx : ℚ
  ty : ℚ

/-- The identity transform, the context's state at the start of
`captureImage` (the source resets it with `setTransform(1,0,0,1,0,0)`). -/
def ctxId : Ctx := { sx := 1, sy := 1, tx := 0, ty := 0 }

/-- `context.translate(a, b)`: post-compose the current transform with a
translation. -/
def Ctx.translate (c : Ctx) (a b : ℚ) : Ctx :=
  { c with tx := c.tx + c.sx * a, ty := c.ty + c.sy * b }

/-- `context.scale(s1, s2)`: post-compose the current transform with an
axis-aligned scaling. -/
def Ctx.scale (c : Ctx) (s1 s2 : ℚ) : Ctx :=
  { c with sx := c.sx * s1, sy := c.sy * s2 }

/-- `context.drawImage(video, 0, 0)`: the pixel drawn at destination
coordinates `(u, v)` is the source pixel at the preimage of `(u, v)` under
the current transform. -/
def Ctx.draw (c : Ctx) (f : Frame) : Frame :=
  fun u v => f ((u - c.tx) / c.sx) ((v - c.ty) / c.sy)

/-- An encoded still image as produced by `canvas.toDataURL`. -/
structure Img where
  width : ℚ
  height : ℚ
  pix : Frame
  mime : String
  quality : ℚ

/-- The still produced by `captureImage` from the current video frame:
if the active camera is front-facing (`'user'`) the context is first
translated by the canvas width and flipped horizontally, then the frame is
drawn and encoded with `toDataURL('image/jpeg', 0.9)`. -/
def capturedImg (fm : Facing) (f : Frame) (w h : ℚ) : Img :=
  let ctx := if fm = .user then (ctxId.translate w 0).scale (-1) 1 else ctxId
  { width := w
    height := h
    pix := ctx.draw f
    mime := "image/jpeg"
    quality := 9 / 10 }

/-- Horizontal mirroring of a frame across a canvas of width `w`. -/
def mirrorH (w : ℚ) (f : Frame) : Frame := fun u v => f (w - u) v

/-! ## Workflow state machine (the `App` component) -/

/-- The React component state of `App`. -/
structure State where
  step : Step
  idImage : Option Img
  selfieImage : Option Img
  result : Option JVal
  error : Option String
  facingMode : Facing
  hasMultipleCameras : Bool
  cam : CamState

/-- The initial component state (`useState` initialisers); whether the
device exposes several cameras is detected at mount and is a parameter. -/
def wfInit (multi : Bool) : State :=
  { step := .welcome
    idImage := none
    selfieImage := none
    result := none
    error := none
    facingMode := .environment
    hasMultipleCameras := multi
    cam := camInit0 }

/-- The generic verification-failure message of the catch branch of
`runVerification`. -/
def verifyErrMsg : String := "The verification engine encountered an error. Please try again."

/-- Resolution of the awaited verification call: the await throws, or it
returns a response whose `.text` is an optional string. -/
inductive CallRes where
  | threw
  | ok (text : Option String)

/-- User and environment events driving the component.  Events that enter
a capture step carry the outcome of the `startCamera` the step-effect
performs; the shutter carries the current video frame and dimensions. -/
inductive Ev where
  | start (o : CamOutcome)
  | flip (o : CamOutcome)
  | shutter (ctxOk : Bool) (f : Frame) (w h : ℚ)
  | retake (o : CamOutcome)
  | confirm (o : CamOutcome)
  | cancel
  | restart
  | resolve (r : CallRes)

/-- Set the step and run the `useEffect` keyed on `step`: the cleanup
stops the camera; entering `capture_id` forces the back camera and starts
it, entering `capture_selfie` forces the front camera and starts it; a
total camera failure sets the camera error message. -/
def setStepEffect (s : State) (st : Step) (o : CamOutcome) : State × List CamEv :=
  let s1 := { s with step := st }
  let p := camStop s1.cam
  match st with
  | .capture_id =>
    let r := camStart p.1 o
    ({ s1 with facingMode := .environment, cam := r.cam,
               error := if r.failed then some camErrMsg else s1.error },
     p.2 ++ r.trace)
  | .capture_selfie =>
    let r := camStart p.1 o
    ({ s1 with facingMode := .user, cam := r.cam,
               error := if r.failed then some camErrMsg else s1.error },
     p.2 ++ r.trace)
  | _ => ({ s1 with cam := p.1 }, p.2)

/-- The `reset` handler: clear both images, the outcome and the error, and
return to `welcome` (whose step-effect merely stops the camera). -/
def resetApply (s : State) : State × List CamEv :=
  setStepEffect
    { s with idImage := none, selfieImage := none, result := none, error := none }
    .welcome .primaryOk

/-- One event of the component: next state, number of verification
requests issued, and the trace of primitive camera actions performed.
Events whose triggering control is not rendered in the current step leave
the state unchanged. -/
def wfStep (s : State) : Ev → State × Nat × List CamEv
  | .start o =>
    -- the Start Verification button, rendered only on the welcome screen
    if s.step = .welcome then
      let p := setStepEffect s .capture_id o
      (p.1, 0, p.2)
    else (s, 0, [])
  | .flip o =>
    -- `flipCamera`, rendered on capture steps when several cameras exist
    if (s.step = .capture_id ∨ s.step = .capture_selfie) ∧ s.hasMultipleCameras then
      let nm := if s.facingMode = .user then Facing.environment else Facing.user
      let r := camStart s.cam o
      ({ s with facingMode := nm, cam := r.cam,
                error := if r.failed then some camErrMsg else s.error },
       0, r.trace)
    else (s, 0, [])
  | .shutter ctxOk f w h =>
    -- `captureImage`, rendered on capture steps; `ctxOk` models the
    -- refs being mounted and `getContext('2d')` returning a context
    if s.step = .capture_id ∨ s.step = .capture_selfie then
      if ctxOk then
        let img := capturedImg s.facingMode f w h
        let p := camStop s.cam
        if s.step = .capture_id then
          let q := setStepEffect { s with idImage := some img, cam := p.1 } .review_id .primaryOk
          (q.1, 0, p.2 ++ q.2)
        else
          let q := setStepEffect { s with selfieImage := some img, cam := p.1 } .review_selfie .primaryOk
          (q.1, 0, p.2 ++ q.2)
      else (s, 0, [])
    else (s, 0, [])
  | .retake o =>
    -- the Retake button of the review screens
    if s.step = .review_id then
      let p := setStepEffect s .capture_id o
      (p.1, 0, p.2)
    else if s.step = .review_selfie then
      let p := setStepEffect s .capture_selfie o
      (p.1, 0, p.2)
    else (s, 0, [])
  | .confirm o =>
    -- the Continue button of the review screens
    if s.step = .review_id then
      let p := setStepEffect s .capture_selfie o
      (p.1, 0, p.2)
    else if s.step = .review_selfie then
      -- `runVerification`: early return unless both images exist,
      -- otherwise clear the error, move to processing, issue one request
      match s.idImage, s.selfieImage with
      | some _, some _ =>
        let p := setStepEffect { s with error := none } .processing .primaryOk
        (p.1, 1, p.2)
      | _, _ => (s, 0, [])
    else (s, 0, [])
  | .cancel =>
    -- the header Cancel button, rendered except on welcome/processing/result
    if s.step ≠ .welcome ∧ s.step ≠ .processing ∧ s.step ≠ .result then
      let p := resetApply s
      (p.1, 0, p.2)
    else (s, 0, [])
  | .restart =>
    -- the New Verification button of the result screen
    if s.step = .result then
      let p := resetApply s
      (p.1, 0, p.2)
    else (s, 0, [])
  | .resolve r =>
    -- completion of the awaited verification call issued while processing
    if s.step = .processing then
      match r with
      | .threw =>
        let p := setStepEffect { s with error := some verifyErrMsg } .result .primaryOk
        (p.1, 0, p.2)
      | .ok t =>
        match jsonParse (jsTextOrDefault t) with
        | .ok v =>
          let p := setStepEffect { s with result := some v } .result .primaryOk
          (p.1, 0, p.2)
        | .error _ =>
          -- `JSON.parse` throwing lands in the same catch branch
          let p := setStepEffect { s with error := some verifyErrMsg } .result .primaryOk
          (p.1, 0, p.2)
    else (s, 0, [])

/-- Run a list of events from a state. -/
def wfRun (s : State) : List Ev → State
  | [] => s
  | e :: r => wfRun (wfStep s e).1 r

/-- Concatenated primitive camera trace of a list of events. -/
def wfTrace (s : State) : List Ev → List CamEv
  | [] => []
  | e :: r => (wfStep s e).2.2 ++ wfTrace (wfStep s e).1 r

/-- Reachable component states: produced by some event sequence from the
initial state (for either camera-count detection outcome). -/
def Reachable (s : State) : Prop :=
  ∃ (multi : Bool) (evs : List Ev), wfRun (wfInit multi) evs = s

/-- The match flag shown on the result screen, `result?.isMatch`. -/
def shownIsMatch (s : State) : Option JVal :=
  s.result.bind (fun v => jGet v "isMatch")

/-- The reasoning shown on the result screen, `result?.reasoning`. -/
def shownReasoning (s : State) : Option JVal :=
  s.result.bind (fun v => jGet v "reasoning")

/-! ## Camera-exclusivity predicate and invariants -/

/-- The list of streams the attachment accounts for. -/
def camAtt (c : CamState) : List Nat :=
  match c.attached with
  | some i => [i]
  | none => []

/-- Camera resource invariant: the streams with running tracks are exactly
the attached one. -/
def CamOk (c : CamState) : Prop := c.live = camAtt c

/-- Whether a primitive camera action is a `getUserMedia` request. -/
def camReqEv : CamEv → Bool
  | .requestGranted _ => true
  | .requestDenied => true
  | _ => false

/-- The exclusive-ownership check over a primitive camera trace: at every
point at most one stream has running tracks, and whenever a request is
issued every previously granted stream has been stopped and detached. -/
def tracksOk (c : CamState) : List CamEv → Bool
  | [] => decide (c.live.length ≤ 1)
  | e :: t =>
    ((decide (c.live.length ≤ 1) &&
      (!camReqEv e || (c.live.isEmpty && c.attached.isNone))) &&
     tracksOk (camExec c e) t)


/-! ## Sequences of camera operations (media acquisition unit) -/

/-- State of the media acquisition unit: preferred facing mode plus the
camera resource state. -/
structure CamSys where
  facing : Facing
  cam : CamState

/-- Initial acquisition-unit state (`facingMode` starts at
`'environment'`). -/
def camSysInit : CamSys := { facing := .environment, cam := camInit0 }

/-- The camera operations of the source: `startCamera` (Acquire, with an
optional explicit facing constraint), `flipCamera` (Flip), `stopCamera`
(Release), and the implicit release performed at the end of
`captureImage` (Capture). -/
inductive CamOp where
  | acquire (m : Option Facing) (o : CamOutcome)
  | flip (o : CamOutcome)
  | release
  | capture
  
/-- Apply one camera operation: new unit state and primitive trace. -/
def camOpApply (s : CamSys) : CamOp → CamSys × List CamEv
  | .acquire _ o =>
    -- the facing constraint (`currentFacingMode || facingMode`) selects
    -- which physical camera the request asks for; `startCamera` does not
    -- change the stored facing mode
    let r := camStart s.cam o
    ({ s with cam := r.cam }, r.trace)
  | .flip o =>
    let nm := if s.facing = .user then Facing.environment else Facing.user
    let r := camStart s.cam o
    ({ facing := nm, cam := r.cam }, r.trace)
  | .release =>
    let p := camStop s.cam
    ({ s with cam := p.1 }, p.2)
  | .capture =>
    -- `captureImage` ends with `stopCamera()`
    let p := camStop s.cam
    ({ s with cam := p.1 }, p.2)

/-- Concatenated primitive trace of a sequence of camera operations. -/
def camOpsTrace (s : CamSys) : List CamOp → List CamEv
  | [] => []
  | op :: r => (camOpApply s op).2 ++ camOpsTrace (camOpApply s op).1 r

/-- The reachable-state invariant of the workflow: review and later steps
only occur with the images their entry captured, the error is cleared and
no outcome is stored while processing, an outcome is stored only on the
result screen, and the camera resource is exclusively owned. -/
def WfInv (s : State) : Prop :=
  (s.step = .review_id → s.idImage ≠ none) ∧
  (s.step = .capture_selfie → s.idImage ≠ none) ∧
  (s.step = .review_selfie → s.idImage ≠ none ∧ s.selfieImage ≠ none) ∧
  (s.step = .processing →
    s.idImage ≠ none ∧ s.selfieImage ≠ none ∧ s.error = none ∧ s.result = none) ∧
  (s.result ≠ none → s.step = .result) ∧
  CamOk s.cam

/-! ## Concrete example states -/

/-- A constant test frame. -/
def exFrame : Frame := fun _ _ => 0

/-- Event list reaching the `capture_id` step. -/
def exEvsCapture : List Ev := [Ev.start CamOutcome.primaryOk]

/-- A reachable state on the `capture_id` step with a granted stream. -/
def exCapture : State := wfRun (wfInit false) exEvsCapture

/-- Event list reaching the `review_id` step. -/
def exEvsReviewId : List Ev :=
  [Ev.start CamOutcome.primaryOk, Ev.shutter true exFrame 4 3]

/-- A reachable state on the `review_id` step. -/
def exReviewId : State := wfRun (wfInit false) exEvsReviewId

/-- Event list reaching the `review_selfie` step. -/
def exEvsReviewSelfie : List Ev :=
  [Ev.start CamOutcome.primaryOk, Ev.shutter true exFrame 4 3,
   Ev.confirm CamOutcome.primaryOk, Ev.shutter true exFrame 4 3]

/-- A reachable state on the `review_selfie` step. -/
def exReviewSelfie : State := wfRun (wfInit false) exEvsReviewSelfie

/-- Event list reaching the `processing` step. -/
def exEvsProcessing : List Ev :=
  exEvsReviewSelfie ++ [Ev.confirm CamOutcome.primaryOk]

/-- A reachable state on the `processing` step. -/
def exProcessing : State := wfRun (wfInit false) exEvsProcessing

/-- Event list reaching the `result` step through a failing call. -/
def exEvsResult : List Ev := exEvsProcessing ++ [Ev.resolve CallRes.threw]

/-- A reachable state on the `result` step. -/
def exResult : State := wfRun (wfInit false) exEvsResult

/-- A well-formed verification response text. -/
def exRespText : String :=
  "\x7b\"isMatch\":true,\"confidence\":0.94,\"reasoning\":\"faces match\"\x7d"

/-- The JSON value `exRespText` parses to. -/
def exRespVal : JVal :=
  JVal.jobj [("isMatch", JVal.jbool true), ("confidence", JVal.jnum 94 100),
    ("reasoning", JVal.jstr "faces match")]

/-- A (not reachable) `review_selfie` state with the ID image absent, used
to exercise the early-return guard of `runVerification` directly. -/
def exReviewSelfieNoId : State :=
  { step := .review_selfie
    idImage := none
    selfieImage := some (capturedImg .user exFrame 4 3)
    result := none
    error := none
    facingMode := .user
    hasMultipleCameras := false
    cam := camInit0 }

lemma camExecs_append (t1 t2 : List CamEv) : ∀ c : CamState,
    camExecs c (t1 ++ t2) = camExecs (camExecs c t1) t2 := by
  induction t1 with
  | nil => intro c; rfl
  | cons e t ih => intro c; simp [camExecs, ih]

lemma tracksOk_append (t1 : List CamEv) : ∀ (c : CamState) (t2 : List CamEv),
    tracksOk c (t1 ++ t2) = true ↔
      (tracksOk c t1 = true ∧ tracksOk (camExecs c t1) t2 = true) := by
  induction t1 with
  | nil =>
    intro c t2
    cases t2 with
    | nil => simp [tracksOk, camExecs]
    | cons e t => simp [tracksOk, camExecs, Bool.and_eq_true]; tauto
  | cons e t1 ih =>
    intro c t2
    simp only [List.cons_append, tracksOk, Bool.and_eq_true, camExecs,
      List.append_eq, ih]
    tauto

lemma camStop_att (c : CamState) : (camStop c).1.attached = none := by
  rcases hc : c.attached with _ | i <;>
    simp [camStop, camStopTrace, hc, camExecs, camExec]

lemma camStop_next (c : CamState) : (camStop c).1.next = c.next := by
  rcases hc : c.attached with _ | i <;>
    simp [camStop, camStopTrace, hc, camExecs, camExec]

lemma camStop_live (c : CamState) (h : CamOk c) : (camStop c).1.live = [] := by
  unfold CamOk camAtt at h
  rcases hc : c.attached with _ | i <;> rw [hc] at h <;>
    simp [camStop, camStopTrace, hc, camExecs, camExec, h]

lemma camStop_camOk (c : CamState) (h : CamOk c) : CamOk (camStop c).1 := by
  unfold CamOk camAtt
  rw [camStop_live c h, camStop_att c]

lemma tracksOk_stop (c : CamState) (h : CamOk c) :
    tracksOk c (camStopTrace c) = true := by
  unfold CamOk camAtt at h
  rcases hc : c.attached with _ | i <;> rw [hc] at h <;>
    simp [camStopTrace, hc, tracksOk, camExec, camReqEv, h]

lemma camStart_camOk (c : CamState) (o : CamOutcome) (h : CamOk c) :
    CamOk (camStart c o).cam := by
  have hl := camStop_live c h
  have ha := camStop_att c
  have hexec : camExecs c (camStopTrace c) = (camStop c).1 := rfl
  unfold camStart camStartTrace
  cases o <;>
    simp [camExecs_append, hexec, camExecs, camExec, CamOk, camAtt, hl, ha]

lemma tracksOk_start (c : CamState) (o : CamOutcome) (h : CamOk c) :
    tracksOk c (camStartTrace c o) = true := by
  have hl := camStop_live c h
  have ha := camStop_att c
  have hexec : camExecs c (camStopTrace c) = (camStop c).1 := rfl
  unfold camStartTrace
  rw [tracksOk_append]
  refine ⟨tracksOk_stop c h, ?_⟩
  cases o <;> simp [hexec, tracksOk, camExec, camReqEv, hl, ha]

lemma camOpApply_camOk (s : CamSys) (op : CamOp) (h : CamOk s.cam) :
    CamOk (camOpApply s op).1.cam := by
  cases op <;> simp [camOpApply] <;>
    first
      | exact camStart_camOk _ _ h
      | exact camStop_camOk _ h

lemma camOpApply_tracksOk (s : CamSys) (op : CamOp) (h : CamOk s.cam) :
    tracksOk s.cam (camOpApply s op).2 = true := by
  cases op <;> simp [camOpApply] <;>
    first
      | exact tracksOk_start _ _ h
      | exact tracksOk_stop _ h

lemma camOpApply_cam (s : CamSys) (op : CamOp) :
    (camOpApply s op).1.cam = camExecs s.cam (camOpApply s op).2 := by
  cases op <;> rfl

lemma camOpsTrace_tracksOk (ops : List CamOp) : ∀ s : CamSys, CamOk s.cam →
    tracksOk s.cam (camOpsTrace s ops) = true := by
  induction ops with
  | nil =>
    intro s h
    have hlen : s.cam.live.length ≤ 1 := by
      rw [h]; unfold camAtt; rcases s.cam.attached <;> simp
    simpa [camOpsTrace, tracksOk] using hlen
  | cons op r ih =>
    intro s h
    rw [camOpsTrace, tracksOk_append]
    refine ⟨camOpApply_tracksOk s op h, ?_⟩
    rw [← camOpApply_cam]
    exact ih _ (camOpApply_camOk s op h)

/-! ## Workflow invariant -/

lemma sse_step (s : State) (st : Step) (o : CamOutcome) :
    ((setStepEffect s st o).1).step = st := by
  cases st <;> rfl

lemma sse_idImage (s : State) (st : Step) (o : CamOutcome) :
    ((setStepEffect s st o).1).idImage = s.idImage := by
  cases st <;> rfl

lemma sse_selfieImage (s : State) (st : Step) (o : CamOutcome) :
    ((setStepEffect s st o).1).selfieImage = s.selfieImage := by
  cases st <;> rfl

lemma sse_result (s : State) (st : Step) (o : CamOutcome) :
    ((setStepEffect s st o).1).result = s.result := by
  cases st <;> rfl

lemma sse_error_nc (s : State) (st : Step) (o : CamOutcome)
    (h1 : st ≠ .capture_id) (h2 : st ≠ .capture_selfie) :
    ((setStepEffect s st o).1).error = s.error := by
  cases st <;> first | rfl | exact absurd rfl h1 | exact absurd rfl h2

lemma sse_camOk (s : State) (st : Step) (o : CamOutcome) (h : CamOk s.cam) :
    CamOk ((setStepEffect s st o).1).cam := by
  have h1 : CamOk (camStop s.cam).1 := camStop_camOk _ h
  cases st <;>
    first
      | exact camStart_camOk _ _ h1
      | exact h1

lemma sse_tracksOk (s : State) (st : Step) (o : CamOutcome) (h : CamOk s.cam) :
    tracksOk s.cam ((setStepEffect s st o).2) = true := by
  have h1 : CamOk (camStop s.cam).1 := camStop_camOk _ h
  cases st <;>
    simp only [setStepEffect] <;>
    first
      | (rw [tracksOk_append]
         exact ⟨tracksOk_stop _ h, tracksOk_start _ _ h1⟩)
      | exact tracksOk_stop _ h

lemma inv_enter (s : State) (st : Step) (o : CamOutcome)
    (hid : st = .review_id → s.idImage ≠ none)
    (hcs : st = .capture_selfie → s.idImage ≠ none)
    (hrs : st = .review_selfie → s.idImage ≠ none ∧ s.selfieImage ≠ none)
    (hpr : st = .processing →
      s.idImage ≠ none ∧ s.selfieImage ≠ none ∧ s.error = none ∧ s.result = none)
    (hres : s.result ≠ none → st = .result)
    (hcam : CamOk s.cam) :
    WfInv (setStepEffect s st o).1 := by
  refine ⟨?_, ?_, ?_, ?_, ?_, sse_camOk s st o hcam⟩
  · intro h; rw [sse_step] at h; rw [sse_idImage]; exact hid h
  · intro h; rw [sse_step] at h; rw [sse_idImage]; exact hcs h
  · intro h; rw [sse_step] at h
    rw [sse_idImage, sse_selfieImage]; exact hrs h
  · intro h; rw [sse_step] at h
    rw [sse_idImage, sse_selfieImage, sse_result]
    rcases hpr h with ⟨a, b, c, d⟩
    refine ⟨a, b, ?_, d⟩
    rw [sse_error_nc s st o (by rw [h]; decide) (by rw [h]; decide)]
    exact c
  · intro h; rw [sse_result] at h; rw [sse_step]; exact hres h

lemma inv_step (s : State) (e : Ev) (h : WfInv s) : WfInv (wfStep s e).1 := by
  obtain ⟨h1, h2, h3, h4, h5, hc⟩ := h
  have hrn : s.step ≠ .result → s.result = none := by
    intro hne
    by_contra hr
    exact hne (h5 hr)
  cases e with
  | start o =>
    by_cases hw : s.step = .welcome
    · have hn : s.result = none := hrn (by rw [hw]; decide)
      simp only [wfStep]
      rw [if_pos hw]
      exact inv_enter s .capture_id o
        (fun h' => absurd h' (by decide)) (fun h' => absurd h' (by decide))
        (fun h' => absurd h' (by decide)) (fun h' => absurd h' (by decide))
        (fun hr => absurd hn hr) hc
    · simp only [wfStep]
      rw [if_neg hw]
      exact ⟨h1, h2, h3, h4, h5, hc⟩
  | flip o =>
    by_cases hg : (s.step = .capture_id ∨ s.step = .capture_selfie) ∧
        s.hasMultipleCameras = true
    · simp only [wfStep]
      rw [if_pos hg]
      refine ⟨fun hp => ?_, fun hp => ?_, fun hp => ?_, fun hp => ?_,
        fun hp => ?_, camStart_camOk _ _ hc⟩
      · exact h1 hp
      · exact h2 hp
      · exact h3 hp
      · rcases hg.1 with h' | h' <;> (rw [h'] at hp; exact absurd hp (by decide))
      · exact h5 hp
    · simp only [wfStep]
      rw [if_neg hg]
      exact ⟨h1, h2, h3, h4, h5, hc⟩
  | shutter ctxOk f w ht =>
    by_cases hcap : s.step = .capture_id ∨ s.step = .capture_selfie
    · by_cases hctx : ctxOk = true
      · simp only [wfStep]
        rw [if_pos hcap, if_pos hctx]
        by_cases hcid : s.step = .capture_id
        · rw [if_pos hcid]
          have hn : s.result = none := hrn (by rw [hcid]; decide)
          exact inv_enter _ .review_id .primaryOk
            (fun _ => by simp) (fun h' => absurd h' (by decide))
            (fun h' => absurd h' (by decide)) (fun h' => absurd h' (by decide))
            (fun hr => absurd hn hr) (camStop_camOk _ hc)
        · rw [if_neg hcid]
          have hcs : s.step = .capture_selfie := hcap.resolve_left hcid
          have hn : s.result = none := hrn (by rw [hcs]; decide)
          exact inv_enter _ .review_selfie .primaryOk
            (fun h' => absurd h' (by decide)) (fun h' => absurd h' (by decide))
            (fun _ => ⟨h2 hcs, by simp⟩) (fun h' => absurd h' (by decide))
            (fun hr => absurd hn hr) (camStop_camOk _ hc)
      · simp only [wfStep]
        rw [if_pos hcap, if_neg hctx]
        exact ⟨h1, h2, h3, h4, h5, hc⟩
    · simp only [wfStep]
      rw [if_neg hcap]
      exact ⟨h1, h2, h3, h4, h5, hc⟩
  | retake o =>
    by_cases hri : s.step = .review_id
    · simp only [wfStep]
      rw [if_pos hri]
      have hn : s.result = none := hrn (by rw [hri]; decide)
      exact inv_enter s .capture_id o
        (fun h' => absurd h' (by decide)) (fun h' => absurd h' (by decide))
        (fun h' => absurd h' (by decide)) (fun h' => absurd h' (by decide))
        (fun hr => absurd hn hr) hc
    · by_cases hrs : s.step = .review_selfie
      · simp only [wfStep]
        rw [if_neg hri, if_pos hrs]
        have hn : s.result = none := hrn (by rw [hrs]; decide)
        exact inv_enter s .capture_selfie o
          (fun h' => absurd h' (by decide)) (fun _ => (h3 hrs).1)
          (fun h' => absurd h' (by decide)) (fun h' => absurd h' (by decide))
          (fun hr => absurd hn hr) hc
      · simp only [wfStep]
        rw [if_neg hri, if_neg hrs]
        exact ⟨h1, h2, h3, h4, h5, hc⟩
  | confirm o =>
    by_cases hri : s.step = .review_id
    · simp only [wfStep]
      rw [if_pos hri]
      have hn : s.result = none := hrn (by rw [hri]; decide)
      exact inv_enter s .capture_selfie o
        (fun h' => absurd h' (by decide)) (fun _ => h1 hri)
        (fun h' => absurd h' (by decide)) (fun h' => absurd h' (by decide))
        (fun hr => absurd hn hr) hc
    · by_cases hrs : s.step = .review_selfie
      · simp only [wfStep]
        rw [if_neg hri, if_pos hrs]
        have hn : s.result = none := hrn (by rw [hrs]; decide)
        rcases hid : s.idImage with _ | a
        · rcases hsf : s.selfieImage with _ | b
          · exact ⟨h1, h2, h3, h4, h5, hc⟩
          · exact ⟨h1, h2, h3, h4, h5, hc⟩
        · rcases hsf : s.selfieImage with _ | b
          · exact ⟨h1, h2, h3, h4, h5, hc⟩
          · exact inv_enter _ .processing .primaryOk
              (fun h' => absurd h' (by decide)) (fun h' => absurd h' (by decide))
              (fun h' => absurd h' (by decide))
              (fun _ => ⟨by simp [hid], by simp [hsf], rfl, hn⟩)
              (fun hr => absurd hn hr) hc
      · simp only [wfStep]
        rw [if_neg hri, if_neg hrs]
        exact ⟨h1, h2, h3, h4, h5, hc⟩
  | cancel =>
    by_cases hg : s.step ≠ .welcome ∧ s.step ≠ .processing ∧ s.step ≠ .result
    · simp only [wfStep]
      rw [if_pos hg]
      exact inv_enter _ .welcome .primaryOk
        (fun h' => absurd h' (by decide)) (fun h' => absurd h' (by decide))
        (fun h' => absurd h' (by decide)) (fun h' => absurd h' (by decide))
        (fun hr => absurd rfl hr) hc
    · simp only [wfStep]
      rw [if_neg hg]
      exact ⟨h1, h2, h3, h4, h5, hc⟩
  | restart =>
    by_cases hg : s.step = .result
    · simp only [wfStep]
      rw [if_pos hg]
      exact inv_enter _ .welcome .primaryOk
        (fun h' => absurd h' (by decide)) (fun h' => absurd h' (by decide))
        (fun h' => absurd h' (by decide)) (fun h' => absurd h' (by decide))
        (fun hr => absurd rfl hr) hc
    · simp only [wfStep]
      rw [if_neg hg]
      exact ⟨h1, h2, h3, h4, h5, hc⟩
  | resolve r =>
    by_cases hp : s.step = .processing
    · obtain ⟨hidp, hsfp, herrp, hresp⟩ := h4 hp
      cases r with
      | threw =>
        simp only [wfStep]
        rw [if_pos hp]
        exact inv_enter _ .result .primaryOk
          (fun h' => absurd h' (by decide)) (fun h' => absurd h' (by decide))
          (fun h' => absurd h' (by decide)) (fun h' => absurd h' (by decide))
          (fun _ => rfl) hc
      | ok t =>
        simp only [wfStep]
        rw [if_pos hp]
        rcases hj : jsonParse (jsTextOrDefault t) with u | v
        · exact inv_enter _ .result .primaryOk
            (fun h' => absurd h' (by decide)) (fun h' => absurd h' (by decide))
            (fun h' => absurd h' (by decide)) (fun h' => absurd h' (by decide))
            (fun _ => rfl) hc
        · exact inv_enter _ .result .primaryOk
            (fun h' => absurd h' (by decide)) (fun h' => absurd h' (by decide))
            (fun h' => absurd h' (by decide)) (fun h' => absurd h' (by decide))
            (fun _ => rfl) hc
    · simp only [wfStep]
      rw [if_neg hp]
      exact ⟨h1, h2, h3, h4, h5, hc⟩

lemma inv_init (multi : Bool) : WfInv (wfInit multi) := by
  refine ⟨fun h' => Step.noConfusion h', fun h' => Step.noConfusion h',
    fun h' => Step.noConfusion h', fun h' => Step.noConfusion h',
    fun hr => absurd rfl hr, ?_⟩
  rfl

lemma inv_run (evs : List Ev) : ∀ s : State, WfInv s → WfInv (wfRun s evs) := by
  induction evs with
  | nil => intro s h; exact h
  | cons e r ih => intro s h; exact ih _ (inv_step s e h)

lemma inv_reachable (s : State) (h : Reachable s) : WfInv s := by
  obtain ⟨multi, evs, rfl⟩ := h
  exact inv_run evs _ (inv_init multi)

lemma sse_cam_nc (s : State) (st : Step) (o : CamOutcome)
    (h1 : st ≠ .capture_id) (h2 : st ≠ .capture_selfie) :
    ((setStepEffect s st o).1).cam = (camStop s.cam).1 := by
  cases st <;> first | rfl | exact absurd rfl h1 | exact absurd rfl h2

lemma capturedImg_user (f : Frame) (w ht : ℚ) :
    (capturedImg .user f w ht).pix = mirrorH w f := by
  funext u v
  show f ((u - (0 + 1 * w)) / (1 * -1)) ((v - (0 + 1 * 0)) / (1 * 1)) = f (w - u) v
  norm_num
  ring_nf

lemma capturedImg_env (f : Frame) (w ht : ℚ) :
    (capturedImg .environment f w ht).pix = f := by
  funext u v
  show f ((u - 0) / 1) ((v - 0) / 1) = f u v
  norm_num

/-! ## Claims -/

/-- C1: for every reachable workflow state other than `welcome`,
`processing` and `result`, the cancel action (the header Cancel button,
which invokes `reset`) moves the workflow to `welcome` and clears the ID
image, the selfie image, the stored verification outcome and the error
message. -/
theorem cancel_resets (s : State) (hR : Reachable s)
    (hw : s.step ≠ .welcome) (hp : s.step ≠ .processing) (hr : s.step ≠ .result) :
    ((wfStep s Ev.cancel).1).step = .welcome ∧
    ((wfStep s Ev.cancel).1).idImage = none ∧
    ((wfStep s Ev.cancel).1).selfieImage = none ∧
    ((wfStep s Ev.cancel).1).result = none ∧
    ((wfStep s Ev.cancel).1).error = none := by
  simp only [wfStep]
  rw [if_pos ⟨hw, hp, hr⟩]
  exact ⟨sse_step _ _ _, (sse_idImage _ _ _).trans rfl,
    (sse_selfieImage _ _ _).trans rfl, (sse_result _ _ _).trans rfl,
    (sse_error_nc _ _ _ (by decide) (by decide)).trans rfl⟩

/-- Witness for C1 at a concrete reachable `capture_id` state. -/
theorem cancel_resets_witness :
    ((wfStep exCapture Ev.cancel).1).step = .welcome ∧
    ((wfStep exCapture Ev.cancel).1).idImage = none ∧
    ((wfStep exCapture Ev.cancel).1).selfieImage = none ∧
    ((wfStep exCapture Ev.cancel).1).result = none ∧
    ((wfStep exCapture Ev.cancel).1).error = none :=
  cancel_resets exCapture ⟨false, exEvsCapture, rfl⟩
    (fun h => Step.noConfusion h) (fun h => Step.noConfusion h)
    (fun h => Step.noConfusion h)

/-- C2: in every reachable state, being on `review_id` implies the ID
image is present, and being on `review_selfie` implies the selfie image is
present — review steps are only entered by a successful capture that
stores the corresponding image. -/
theorem review_steps_have_images (s : State) (hR : Reachable s) :
    (s.step = .review_id → s.idImage ≠ none) ∧
    (s.step = .review_selfie → s.selfieImage ≠ none) := by
  obtain ⟨h1, _, h3, _, _, _⟩ := inv_reachable s hR
  exact ⟨h1, fun h => (h3 h).2⟩

/-- Witness for C2 at a concrete reachable `review_id` state. -/
theorem review_steps_have_images_witness :
    (exReviewId.step = .review_id → exReviewId.idImage ≠ none) ∧
    (exReviewId.step = .review_selfie → exReviewId.selfieImage ≠ none) :=
  review_steps_have_images exReviewId ⟨false, exEvsReviewId, rfl⟩

/-- C3: for every state on `review_selfie`, confirming issues exactly one
verification request if and only if both images are present, and with
either image absent `runVerification` returns early, issuing no request
and leaving the state unchanged (this part holds for arbitrary states, it
does not rest on reachability); and in every reachable state, confirming
`review_id` moves to `capture_selfie` exactly when the ID image is
present. -/
theorem confirm_guarded (s : State) (o : CamOutcome) :
    (s.step = .review_selfie →
      (((wfStep s (Ev.confirm o)).2.1 = 1) ↔ (s.idImage ≠ none ∧ s.selfieImage ≠ none)) ∧
      ((s.idImage = none ∨ s.selfieImage = none) → wfStep s (Ev.confirm o) = (s, 0, []))) ∧
    (Reachable s → s.step = .review_id →
      (((wfStep s (Ev.confirm o)).1).step = .capture_selfie ↔ s.idImage ≠ none)) := by
  constructor
  · intro hrs
    have hri : ¬s.step = .review_id := by rw [hrs]; decide
    simp only [wfStep]
    rw [if_neg hri, if_pos hrs]
    rcases hid : s.idImage with _ | a
    · rcases hsf : s.selfieImage with _ | b <;> simp
    rcases hsf : s.selfieImage with _ | b
    · simp
    · simp
  · intro hR hri
    obtain ⟨h1, _, _, _, _, _⟩ := inv_reachable s hR
    simp only [wfStep]
    rw [if_pos hri]
    exact ⟨fun _ => h1 hri, fun _ => sse_step _ _ _⟩

/-- Witness for C3: at a concrete reachable `review_selfie` state the
confirm issues exactly one verification request, and at a concrete
`review_selfie` state with the ID image absent the confirm issues no
request and leaves the state unchanged. -/
theorem confirm_guarded_witness :
    (wfStep exReviewSelfie (Ev.confirm CamOutcome.primaryOk)).2.1 = 1 ∧
    wfStep exReviewSelfieNoId (Ev.confirm CamOutcome.primaryOk)
      = (exReviewSelfieNoId, 0, []) :=
  ⟨((confirm_guarded exReviewSelfie CamOutcome.primaryOk).1 rfl).1.mpr
      ⟨fun h => Option.noConfusion h, fun h => Option.noConfusion h⟩,
   ((confirm_guarded exReviewSelfieNoId CamOutcome.primaryOk).1 rfl).2
      (Or.inl rfl)⟩

/-- C4 counterexample: at a concrete reachable `review_id` state, the
retake action does not discard the ID image — after retake the workflow is
back on `capture_id` but the ID image is still present, contradicting the
claim that retake sets the reviewed image to null. -/
theorem retake_discards_counterexample :
    exReviewId.step = Step.review_id ∧
    exReviewId.idImage ≠ none ∧
    ((wfStep exReviewId (Ev.retake CamOutcome.primaryOk)).1).step = Step.capture_id ∧
    ((wfStep exReviewId (Ev.retake CamOutcome.primaryOk)).1).idImage ≠ none :=
  ⟨rfl, fun h => Option.noConfusion h, rfl, fun h => Option.noConfusion h⟩

/-- C4 (amended): retake from a review step transitions back to the
corresponding capture step and leaves both captured images unchanged —
the reviewed image is preserved, not discarded; it is only replaced when
the next capture overwrites it. -/
theorem retake_preserves_images (s : State) (o : CamOutcome) :
    (s.step = .review_id →
      ((wfStep s (Ev.retake o)).1).step = .capture_id ∧
      ((wfStep s (Ev.retake o)).1).idImage = s.idImage ∧
      ((wfStep s (Ev.retake o)).1).selfieImage = s.selfieImage) ∧
    (s.step = .review_selfie →
      ((wfStep s (Ev.retake o)).1).step = .capture_selfie ∧
      ((wfStep s (Ev.retake o)).1).idImage = s.idImage ∧
      ((wfStep s (Ev.retake o)).1).selfieImage = s.selfieImage) := by
  constructor
  · intro hri
    simp only [wfStep]
    rw [if_pos hri]
    exact ⟨sse_step _ _ _, sse_idImage _ _ _, sse_selfieImage _ _ _⟩
  · intro hrs
    have hri : ¬s.step = .review_id := by rw [hrs]; decide
    simp only [wfStep]
    rw [if_neg hri, if_pos hrs]
    exact ⟨sse_step _ _ _, sse_idImage _ _ _, sse_selfieImage _ _ _⟩

/-- Witness for the amended C4 at a concrete `review_id` state. -/
theorem retake_preserves_images_witness :
    ((wfStep exReviewId (Ev.retake CamOutcome.primaryOk)).1).step = Step.capture_id ∧
    ((wfStep exReviewId (Ev.retake CamOutcome.primaryOk)).1).idImage = exReviewId.idImage ∧
    ((wfStep exReviewId (Ev.retake CamOutcome.primaryOk)).1).selfieImage = exReviewId.selfieImage :=
  (retake_preserves_images exReviewId CamOutcome.primaryOk).1 rfl

/-- C5: when the verification call resolves on `processing` and its
response text parses to a JSON value `v`, the workflow moves to `result`
and stores exactly `v`; in particular the displayed match flag and
reasoning are exactly the `isMatch` and `reasoning` fields of the call's
response. -/
theorem verify_success_stores_outcome (s : State) (t : Option String)
    (v : JVal) (b : Bool) (r : String)
    (hp : s.step = .processing)
    (hj : jsonParse (jsTextOrDefault t) = .ok v)
    (hm : jGet v "isMatch" = some (JVal.jbool b))
    (hr : jGet v "reasoning" = some (JVal.jstr r)) :
    ((wfStep s (Ev.resolve (CallRes.ok t))).1).step = .result ∧
    ((wfStep s (Ev.resolve (CallRes.ok t))).1).result = some v ∧
    shownIsMatch ((wfStep s (Ev.resolve (CallRes.ok t))).1) = some (JVal.jbool b) ∧
    shownReasoning ((wfStep s (Ev.resolve (CallRes.ok t))).1) = some (JVal.jstr r) := by
  simp only [wfStep]
  rw [if_pos hp]
  simp only [hj]
  have hres : ((setStepEffect { s with result := some v } .result .primaryOk).1).result
      = some v := (sse_result _ _ _).trans rfl
  refine ⟨sse_step _ _ _, hres, ?_, ?_⟩
  · simp only [shownIsMatch, hres, Option.some_bind]
    exact hm
  · simp only [shownReasoning, hres, Option.some_bind]
    exact hr

/-- Witness for C5 at a concrete processing state and response text. -/
theorem verify_success_stores_outcome_witness :
    ((wfStep exProcessing (Ev.resolve (CallRes.ok (some exRespText)))).1).step = .result ∧
    ((wfStep exProcessing (Ev.resolve (CallRes.ok (some exRespText)))).1).result = some exRespVal ∧
    shownIsMatch ((wfStep exProcessing (Ev.resolve (CallRes.ok (some exRespText)))).1)
      = some (JVal.jbool true) ∧
    shownReasoning ((wfStep exProcessing (Ev.resolve (CallRes.ok (some exRespText)))).1)
      = some (JVal.jstr "faces match") :=
  verify_success_stores_outcome exProcessing (some exRespText) exRespVal true
    "faces match" rfl rfl rfl rfl

/-- C6: when the verification call throws on `processing`, the workflow
still advances to `result`, stores the fixed generic failure message, no
match outcome is stored, and the handler issues no further verification
request (no automatic retry). -/
theorem verify_failure_reports_error (s : State) (hR : Reachable s)
    (hp : s.step = .processing) :
    ((wfStep s (Ev.resolve CallRes.threw)).1).step = .result ∧
    ((wfStep s (Ev.resolve CallRes.threw)).1).error = some verifyErrMsg ∧
    ((wfStep s (Ev.resolve CallRes.threw)).1).result = none ∧
    (wfStep s (Ev.resolve CallRes.threw)).2.1 = 0 := by
  obtain ⟨_, _, _, h4, _, _⟩ := inv_reachable s hR
  obtain ⟨_, _, _, hres⟩ := h4 hp
  simp only [wfStep]
  rw [if_pos hp]
  refine ⟨sse_step _ _ _, ?_, ?_, rfl⟩
  · exact (sse_error_nc _ _ _ (by decide) (by decide)).trans rfl
  · exact (sse_result _ _ _).trans hres

/-- Witness for C6 at a concrete reachable processing state. -/
theorem verify_failure_reports_error_witness :
    ((wfStep exProcessing (Ev.resolve CallRes.threw)).1).step = .result ∧
    ((wfStep exProcessing (Ev.resolve CallRes.threw)).1).error = some verifyErrMsg ∧
    ((wfStep exProcessing (Ev.resolve CallRes.threw)).1).result = none ∧
    (wfStep exProcessing (Ev.resolve CallRes.threw)).2.1 = 0 :=
  verify_failure_reports_error exProcessing ⟨false, exEvsProcessing, rfl⟩ rfl

/-- C7: capturing with an active stream stores, for the step being
captured, a still whose pixels are the horizontal mirror of the video
frame exactly when the active camera is front-facing (and the unmirrored
frame when it is back-facing), encoded as a lossy JPEG (quality 0.9 < 1);
and afterwards no camera stream remains active — capture implicitly
releases the camera. -/
theorem capture_mirrors_encodes_releases (s : State) (f : Frame) (w ht : ℚ)
    (i : Nat) (hR : Reachable s)
    (hcap : s.step = .capture_id ∨ s.step = .capture_selfie)
    (hatt : s.cam.attached = some i) :
    (s.step = .capture_id →
      ((wfStep s (Ev.shutter true f w ht)).1).idImage
        = some (capturedImg s.facingMode f w ht)) ∧
    (s.step = .capture_selfie →
      ((wfStep s (Ev.shutter true f w ht)).1).selfieImage
        = some (capturedImg s.facingMode f w ht)) ∧
    (s.facingMode = .user → (capturedImg s.facingMode f w ht).pix = mirrorH w f) ∧
    (s.facingMode = .environment → (capturedImg s.facingMode f w ht).pix = f) ∧
    (capturedImg s.facingMode f w ht).mime = "image/jpeg" ∧
    (capturedImg s.facingMode f w ht).quality = 9 / 10 ∧
    (capturedImg s.facingMode f w ht).quality < 1 ∧
    ((wfStep s (Ev.shutter true f w ht)).1).cam.live = [] ∧
    ((wfStep s (Ev.shutter true f w ht)).1).cam.attached = none := by
  obtain ⟨_, _, _, _, _, hc⟩ := inv_reachable s hR
  have hc1 : CamOk (camStop s.cam).1 := camStop_camOk _ hc
  have hmime : (capturedImg s.facingMode f w ht).mime = "image/jpeg" := by
    unfold capturedImg
    split <;> rfl
  have hq : (capturedImg s.facingMode f w ht).quality = 9 / 10 := by
    unfold capturedImg
    split <;> rfl
  have hstep :
      (s.step = .capture_id →
        ((wfStep s (Ev.shutter true f w ht)).1).idImage
          = some (capturedImg s.facingMode f w ht)) ∧
      (s.step = .capture_selfie →
        ((wfStep s (Ev.shutter true f w ht)).1).selfieImage
          = some (capturedImg s.facingMode f w ht)) ∧
      ((wfStep s (Ev.shutter true f w ht)).1).cam.live = [] ∧
      ((wfStep s (Ev.shutter true f w ht)).1).cam.attached = none := by
    simp only [wfStep]
    rw [if_pos hcap]
    simp only [if_true]
    rcases hcap with hcid | hcsf
    · rw [if_pos hcid]
      refine ⟨fun _ => (sse_idImage _ _ _).trans rfl, fun h' => ?_, ?_, ?_⟩
      · rw [hcid] at h'; exact absurd h' (by decide)
      · rw [sse_cam_nc _ _ _ (by decide) (by decide)]
        exact camStop_live _ hc1
      · rw [sse_cam_nc _ _ _ (by decide) (by decide)]
        exact camStop_att _
    · have hncid : ¬s.step = .capture_id := by rw [hcsf]; decide
      rw [if_neg hncid]
      refine ⟨fun h' => ?_, fun _ => (sse_selfieImage _ _ _).trans rfl, ?_, ?_⟩
      · rw [hcsf] at h'; exact absurd h' (by decide)
      · rw [sse_cam_nc _ _ _ (by decide) (by decide)]
        exact camStop_live _ hc1
      · rw [sse_cam_nc _ _ _ (by decide) (by decide)]
        exact camStop_att _
  refine ⟨hstep.1, hstep.2.1, ?_, ?_, hmime, hq, ?_, hstep.2.2.1, hstep.2.2.2⟩
  · intro hu; rw [hu]; exact capturedImg_user f w ht
  · intro he; rw [he]; exact capturedImg_env f w ht
  · rw [hq]; norm_num

/-- Witness for C7 at a concrete reachable `capture_id` state with a
granted stream. -/
theorem capture_mirrors_encodes_releases_witness :
    ((wfStep exCapture (Ev.shutter true exFrame 4 3)).1).idImage
      = some (capturedImg exCapture.facingMode exFrame 4 3) ∧
    (capturedImg exCapture.facingMode exFrame 4 3).pix = exFrame ∧
    (capturedImg exCapture.facingMode exFrame 4 3).quality < 1 ∧
    ((wfStep exCapture (Ev.shutter true exFrame 4 3)).1).cam.live = [] ∧
    ((wfStep exCapture (Ev.shutter true exFrame 4 3)).1).cam.attached = none := by
  have h := capture_mirrors_encodes_releases exCapture exFrame 4 3 0
    ⟨false, exEvsCapture, rfl⟩ (Or.inl rfl) rfl
  exact ⟨h.1 rfl, h.2.2.2.1 rfl, h.2.2.2.2.2.2.1, h.2.2.2.2.2.2.2.1,
    h.2.2.2.2.2.2.2.2⟩

/-- C8: along every sequence of camera operations (Acquire, Flip, Release,
Capture) from the initial state, the primitive trace satisfies exclusive
ownership: at most one stream has running tracks at any point, and
whenever a `getUserMedia` request is issued, every previously granted
stream has been stopped and detached. -/
theorem never_two_streams (ops : List CamOp) :
    tracksOk camInit0 (camOpsTrace camSysInit ops) = true :=
  camOpsTrace_tracksOk ops camSysInit rfl

/-- C9: if the verification call resolves on `processing` with an absent
or empty response text, the workflow still reaches `result` with no error
message — the outcome is parsed from the default empty-object literal, so
its `isMatch`, `confidence` and `reasoning` fields are all absent and the
generic-error branch is not taken. -/
theorem empty_response_not_error (s : State) (t : Option String)
    (hR : Reachable s) (hp : s.step = .processing)
    (ht : t = none ∨ t = some "") :
    ((wfStep s (Ev.resolve (CallRes.ok t))).1).step = .result ∧
    ((wfStep s (Ev.resolve (CallRes.ok t))).1).error = none ∧
    ((wfStep s (Ev.resolve (CallRes.ok t))).1).result = some (JVal.jobj []) ∧
    shownIsMatch ((wfStep s (Ev.resolve (CallRes.ok t))).1) = none ∧
    shownReasoning ((wfStep s (Ev.resolve (CallRes.ok t))).1) = none := by
  obtain ⟨_, _, _, h4, _, _⟩ := inv_reachable s hR
  obtain ⟨_, _, herr, _⟩ := h4 hp
  have hj : jsonParse (jsTextOrDefault t) = .ok (JVal.jobj []) := by
    rcases ht with h' | h' <;> rw [h'] <;> rfl
  simp only [wfStep]
  rw [if_pos hp]
  simp only [hj]
  have hres : ((setStepEffect { s with result := some (JVal.jobj []) }
      .result .primaryOk).1).result = some (JVal.jobj []) :=
    (sse_result _ _ _).trans rfl
  refine ⟨sse_step _ _ _, ?_, hres, ?_, ?_⟩
  · exact (sse_error_nc _ _ _ (by decide) (by decide)).trans herr
  · simp only [shownIsMatch, hres, Option.some_bind]
    rfl
  · simp only [shownReasoning, hres, Option.some_bind]
    rfl

/-- Witness for C9 at a concrete reachable processing state with an
absent response text. -/
theorem empty_response_not_error_witness :
    ((wfStep exProcessing (Ev.resolve (CallRes.ok none))).1).step = .result ∧
    ((wfStep exProcessing (Ev.resolve (CallRes.ok none))).1).error = none ∧
    ((wfStep exProcessing (Ev.resolve (CallRes.ok none))).1).result = some (JVal.jobj []) ∧
    shownIsMatch ((wfStep exProcessing (Ev.resolve (CallRes.ok none))).1) = none ∧
    shownReasoning ((wfStep exProcessing (Ev.resolve (CallRes.ok none))).1) = none :=
  empty_response_not_error exProcessing none ⟨false, exEvsProcessing, rfl⟩ rfl
    (Or.inl rfl)

/-- C10: in every reachable state a stored verification outcome entails
being on the `result` step (so the outcome is null on `welcome`, both
capture steps, both review steps and `processing`); and every transition
that leaves `result` clears the outcome back to null. -/
theorem outcome_only_in_result (s : State) (hR : Reachable s) :
    (s.result ≠ none → s.step = .result) ∧
    (∀ e : Ev, s.step = .result → ((wfStep s e).1).step ≠ .result →
      ((wfStep s e).1).result = none) := by
  obtain ⟨_, _, _, _, h5, _⟩ := inv_reachable s hR
  refine ⟨h5, ?_⟩
  intro e hres hne
  cases e with
  | start o =>
    exfalso
    apply hne
    simp only [wfStep]
    rw [if_neg (show ¬s.step = .welcome by rw [hres]; decide)]
    exact hres
  | flip o =>
    exfalso
    apply hne
    simp only [wfStep]
    rw [if_neg (show ¬((s.step = .capture_id ∨ s.step = .capture_selfie) ∧
        s.hasMultipleCameras = true) from fun hg => by
      rcases hg.1 with h' | h' <;> (rw [hres] at h'; exact absurd h' (by decide)))]
    exact hres
  | shutter ctxOk f w ht =>
    exfalso
    apply hne
    simp only [wfStep]
    rw [if_neg (show ¬(s.step = .capture_id ∨ s.step = .capture_selfie) from
      fun hg => by
        rcases hg with h' | h' <;> (rw [hres] at h'; exact absurd h' (by decide)))]
    exact hres
  | retake o =>
    exfalso
    apply hne
    simp only [wfStep]
    rw [if_neg (show ¬s.step = .review_id by rw [hres]; decide),
      if_neg (show ¬s.step = .review_selfie by rw [hres]; decide)]
    exact hres
  | confirm o =>
    exfalso
    apply hne
    simp only [wfStep]
    rw [if_neg (show ¬s.step = .review_id by rw [hres]; decide),
      if_neg (show ¬s.step = .review_selfie by rw [hres]; decide)]
    exact hres
  | cancel =>
    exfalso
    apply hne
    simp only [wfStep]
    rw [if_neg (show ¬(s.step ≠ .welcome ∧ s.step ≠ .processing ∧
        s.step ≠ .result) from fun hg => hg.2.2 hres)]
    exact hres
  | restart =>
    simp only [wfStep]
    rw [if_pos hres]
    exact (sse_result _ _ _).trans rfl
  | resolve r =>
    exfalso
    apply hne
    simp only [wfStep]
    rw [if_neg (show ¬s.step = .processing by rw [hres]; decide)]
    exact hres

/-- Witness for C10 at a concrete reachable `result` state: restarting
from it clears the stored outcome. -/
theorem outcome_only_in_result_witness :
    ((wfStep exResult Ev.restart).1).result = none :=
  (outcome_only_in_result exResult ⟨false, exEvsResult, rfl⟩).2 Ev.restart rfl
    (fun h => Step.noConfusion h)
